import Mathlib

/-!
Verification development for the `JetCalibrator` algorithm of
`xAODAnaHelpers` (header `src/xAODAnaHelpers/JetCalibrator.h`).

The repository ships only the class declaration; the behaviour of the
member functions (`initialize`, `execute`, ...) is therefore modelled from
the specification (`spec.md`).  Definitions whose doc comment begins with
`Modelled from the spec:` embed behaviour whose implementation file is
missing from `src/`; the remaining definitions mirror data members that are
declared in the header itself.
-/

namespace JetCalib

/-- Error taxonomy of the setup phase (spec section 7): configuration
inconsistencies and provider construction failures are fatal for the run. -/
inductive ConfigError where
  | ConfigurationError
  | ProviderInitError
deriving DecidableEq, Repr

/-- Per-event error taxonomy (spec section 7): a missing input collection is
fatal for the event only. -/
inductive EventError where
  | MissingInputError
deriving DecidableEq, Repr

/-- Run-time sample provenance flags (spec section 3), resolved from file
metadata; the header stores them in `m_isMC` and `m_isFullSim` together with
the override flags `m_setAFII` and `m_forceInsitu`. -/
structure Provenance where
  isSimulation : Bool
  isFullSimulation : Bool
  forcedFastSim : Bool
  forcedInsitu : Bool
deriving DecidableEq, Repr

/-- The three mutually exclusive calibration branches of the decision table
(spec section 4.2). -/
inductive SampleClass where
  | data
  | fullSim
  | fastSim
deriving DecidableEq, Repr

/-- Modelled from the spec: the provenance classification used by the missing
implementation file of `JetCalibrator`.  Data when not simulation; for
simulation, a forced fast-simulation override wins over metadata declaring
full simulation (spec sections 4.1 and 9). -/
def sampleClass (p : Provenance) : SampleClass :=
  if p.isSimulation = false then SampleClass.data
  else if p.isFullSimulation && !p.forcedFastSim then SampleClass.fullSim
  else SampleClass.fastSim

/-- Configuration surface of `JetCalibrator`, mirroring the public data
members declared in `src/xAODAnaHelpers/JetCalibrator.h`.  The calibration
sequence is kept as an ordered list of step names (spec section 3); the
header stores it as one string. -/
structure JetCalibratorConfig where
  m_inContainerName : String
  m_outContainerName : String
  m_jetAlgo : String
  m_outputAlgo : String
  m_calibConfigData : String
  m_calibConfigFullSim : String
  m_calibConfigAFII : String
  m_calibSequence : List String
  m_JESUncertConfig : String
  m_JESUncertMCType : String
  m_setAFII : Bool
  m_forceInsitu : Bool
  m_isTrigger : Bool
  m_JERUncertConfig : String
  m_JERFullSys : Bool
  m_JERApplyNominal : Bool
  m_doCleaning : Bool
  m_jetCleanCutLevel : String
  m_saveAllCleanDecisions : Bool
  m_jetCleanUgly : Bool
  m_redoJVT : Bool
  m_sort : Bool
  m_cleanParent : Bool
  m_applyFatJetPreSel : Bool
  m_doJetTileCorr : Bool
deriving Repr

/-- Calibration configuration: the config path handed to the calibration
tool (`m_calibConfig` in the header) and the ordered calibration sequence
(spec section 3). -/
structure CalibrationConfiguration where
  configPath : String
  sequence : List String
deriving DecidableEq, Repr

/-- Modelled from the spec: the Calibration Configuration Selector (spec
section 4.2), whose implementation file is missing from `src/`.  It fills
`m_calibConfig` from `m_calibConfigData`, `m_calibConfigFullSim` or
`m_calibConfigAFII` depending on provenance; the `Insitu` step is appended
for data, or when the insitu override is forced (spec section 4.1). -/
def select (cfg : JetCalibratorConfig) (p : Provenance) : CalibrationConfiguration :=
  match sampleClass p with
  | SampleClass.data =>
      { configPath := cfg.m_calibConfigData
        sequence := cfg.m_calibSequence ++ ["Insitu"] }
  | SampleClass.fullSim =>
      { configPath := cfg.m_calibConfigFullSim
        sequence :=
          if p.forcedInsitu then cfg.m_calibSequence ++ ["Insitu"] else cfg.m_calibSequence }
  | SampleClass.fastSim =>
      { configPath := cfg.m_calibConfigAFII
        sequence :=
          if p.forcedInsitu then cfg.m_calibSequence ++ ["Insitu"] else cfg.m_calibSequence }

/-- Origin tool of a systematic descriptor (spec section 3). -/
inductive OriginTool where
  | jes
  | jer
  | noTool
deriving DecidableEq, Repr

/-- Modelled from the spec: the integer origin-tool code stored in
`m_systType` (declared parallel to `m_systList` in the header): 0 for the
nominal entry, 1 for a JES variation, 2 for a JER variation. -/
def toolCode : OriginTool → Int
  | OriginTool.noTool => 0
  | OriginTool.jes => 1
  | OriginTool.jer => 2

/-- A systematic descriptor (spec section 3): the empty name denotes the
nominal, unshifted variant. -/
structure SystematicDescriptor where
  name : String
  originTool : OriginTool
deriving DecidableEq, Repr

/-- The nominal descriptor: empty name, no origin tool. -/
def nominalDescriptor : SystematicDescriptor :=
  { name := "", originTool := OriginTool.noTool }

/-- True for descriptors that apply an actual systematic shift. -/
def isShifted (d : SystematicDescriptor) : Bool :=
  match d.originTool with
  | OriginTool.noTool => false
  | _ => true

/-- The variation sets registered by the external uncertainty providers
(spec section 6): opaque inputs to the Systematics Enumerator. -/
structure Providers where
  jesVars : List String
  jerVars : List String
deriving DecidableEq, Repr

/-- Modelled from the spec: the JES part of the Systematics Enumerator (spec
section 4.4); the JES provider is queried only when a JES uncertainty config
was supplied. -/
def jesDescriptors (cfg : JetCalibratorConfig) (pr : Providers) :
    List SystematicDescriptor :=
  if cfg.m_JESUncertConfig = "" then []
  else pr.jesVars.map (fun n => { name := n, originTool := OriginTool.jes })

/-- Modelled from the spec: the JER part of the Systematics Enumerator (spec
section 4.4); the JER provider runs only when a JER uncertainty config was
supplied (`m_JERUncertConfig` in the header).  When `m_JERFullSys` is false
the registered set collapses to a single simplified variation; when true
every registered variation is kept. -/
def jerDescriptors (cfg : JetCalibratorConfig) (pr : Providers) :
    List SystematicDescriptor :=
  if cfg.m_JERUncertConfig = "" then []
  else if cfg.m_JERFullSys then
    pr.jerVars.map (fun n => { name := n, originTool := OriginTool.jer })
  else [{ name := "JER_Simplified", originTool := OriginTool.jer }]

/-- Whether some JES-origin descriptor shares its name with a JER-origin
descriptor (spec section 4.4). -/
def hasCollision (jes jer : List SystematicDescriptor) : Bool :=
  jes.any (fun d => jer.any (fun e => e.name == d.name))

/-- Modelled from the spec: the Systematics Enumerator (spec section 4.4),
whose implementation file is missing from `src/`.  It always puts the
nominal descriptor first, appends the JES-origin then the JER-origin
descriptors, and fails with a `ConfigurationError` on a name collision
between the two origins. -/
def enumerate (cfg : JetCalibratorConfig) (pr : Providers) :
    Except ConfigError (List SystematicDescriptor) :=
  if hasCollision (jesDescriptors cfg pr) (jerDescriptors cfg pr) then
    Except.error ConfigError.ConfigurationError
  else Except.ok (nominalDescriptor :: (jesDescriptors cfg pr ++ jerDescriptors cfg pr))

/-- Output collection name derived from the base name `m_outContainerName`
and a descriptor (spec section 3): the base name for the nominal descriptor,
the base name with the variation name appended otherwise. -/
def outputCollectionName (base : String) (d : SystematicDescriptor) : String :=
  if d.name = "" then base else base ++ d.name

/-- Modelled from the spec: filling the parallel vectors `m_systList` (names
of the systematic sets) and `m_systType` (origin-tool codes) declared in the
header, one entry per enumerated descriptor. -/
def buildSystVectors : List SystematicDescriptor → List String × List Int
  | [] => ([], [])
  | d :: rest =>
      let p := buildSystVectors rest
      (d.name :: p.1, toolCode d.originTool :: p.2)

/-- State established by a successful setup: the chosen calibration config
and sequence, the enumerated descriptors, the parallel vectors `m_systList`
and `m_systType`, the `m_runSysts` flag and whether the tile-correction
capability was constructed. -/
structure SetupState where
  m_calibConfig : String
  calibSequence : List String
  systDescriptors : List SystematicDescriptor
  m_systList : List String
  m_systType : List Int
  m_runSysts : Bool
  tileCorrReady : Bool
deriving DecidableEq, Repr, Inhabited

/-- Modelled from the spec: the setup phase of `JetCalibrator` (spec
sections 4.2 to 4.4), whose implementation file is missing from `src/`.
It selects the calibration configuration, fails fast when the required
config path is empty, fails when tile correction is requested without the
`Insitu` step in the sequence (spec section 4.3), enumerates the systematic
descriptors and sets `m_runSysts` exactly when some shifted descriptor
exists (header line 114: set to true if systematics asked for and exist). -/
def setup (cfg : JetCalibratorConfig) (p : Provenance) (pr : Providers) :
    Except ConfigError SetupState :=
  if (select cfg p).configPath = "" then Except.error ConfigError.ConfigurationError
  else if cfg.m_doJetTileCorr ∧ "Insitu" ∉ (select cfg p).sequence then
    Except.error ConfigError.ConfigurationError
  else
    match enumerate cfg pr with
    | Except.error e => Except.error e
    | Except.ok l =>
        Except.ok
          { m_calibConfig := (select cfg p).configPath
            calibSequence := (select cfg p).sequence
            systDescriptors := l
            m_systList := (buildSystVectors l).1
            m_systType := (buildSystVectors l).2
            m_runSysts := l.any isShifted
            tileCorrReady := cfg.m_doJetTileCorr }

/-- A reconstructed jet: kinematics plus the decorations written by the
pipeline (JVT score and cleaning decisions).  The numeric content of the
provider tools is out of scope (spec section 1), so kinematics are modelled
over the integers. -/
structure Jet where
  pt : Int
  eta : Int
  phi : Int
  e : Int
  jvt : Option Int
  cleanDecisions : List (String × Bool)
deriving DecidableEq, Repr

/-- Opaque provider capabilities (spec section 6): each exposes a pure
apply or evaluate operation over jets; they are stateless with respect to
per-event data (spec section 5). -/
structure Capabilities where
  calibrate : List String → Jet → Jet
  jesShift : String → Jet → Jet
  jerSmear : String → Jet → Jet
  jvtScore : Jet → Int
  cleaningTools : List (String × (Jet → Bool))
  tileCorrect : Jet → Jet

/-- Modelled from the spec: stable ordered insertion for the descending
transverse-momentum sort (spec section 4.5 step 7).  A jet is inserted in
front of the first jet whose momentum does not exceed it, so an inserted jet
goes before later jets of equal momentum. -/
def insertJetDesc (a : Jet) : List Jet → List Jet
  | [] => [a]
  | b :: l => if b.pt ≤ a.pt then a :: b :: l else b :: insertJetDesc a l

/-- Modelled from the spec: the stable sort by descending transverse
momentum applied when `m_sort` is set (spec section 4.5 step 7). -/
def sortJetsByPt : List Jet → List Jet
  | [] => []
  | a :: l => insertJetDesc a (sortJetsByPt l)

/-- Modelled from the spec: step 3 of the per-event pipeline (spec section
4.5): a JES descriptor applies the JES shift, a JER descriptor applies the
JER smearing, and the nominal descriptor applies no shift unless nominal
JER smearing is enabled (`m_JERApplyNominal`). -/
def applyShift (cfg : JetCalibratorConfig) (caps : Capabilities)
    (d : SystematicDescriptor) (j : Jet) : Jet :=
  match d.originTool with
  | OriginTool.jes => caps.jesShift d.name j
  | OriginTool.jer => caps.jerSmear d.name j
  | OriginTool.noTool =>
      if cfg.m_JERUncertConfig ≠ "" ∧ cfg.m_JERApplyNominal then caps.jerSmear "" j
      else j

/-- Modelled from the spec: step 5 of the per-event pipeline (spec section
4.5): every configured cleaning capability attaches its boolean decision
under its own label. -/
def decorateClean (caps : Capabilities) (j : Jet) : Jet :=
  { j with cleanDecisions := caps.cleaningTools.map (fun t => (t.1, t.2 j)) }

/-- Modelled from the spec: steps 1 to 6 of the Per-Event Calibration
Pipeline (spec section 4.5) for one descriptor: shallow copy, calibration,
systematic shift, optional JVT recomputation, optional cleaning decoration,
optional tile correction. -/
def pipelineStages (cfg : JetCalibratorConfig) (st : SetupState)
    (caps : Capabilities) (d : SystematicDescriptor) (jets : List Jet) : List Jet :=
  let s2 := jets.map (caps.calibrate st.calibSequence)
  let s3 := s2.map (applyShift cfg caps d)
  let s4 :=
    if cfg.m_redoJVT then s3.map (fun j => { j with jvt := some (caps.jvtScore j) }) else s3
  let s5 := if cfg.m_doCleaning then s4.map (decorateClean caps) else s4
  if cfg.m_doJetTileCorr then s5.map caps.tileCorrect else s5

/-- Modelled from the spec: steps 1 to 7 of the Per-Event Calibration
Pipeline for one descriptor; step 7 sorts by descending transverse momentum
when `m_sort` is set. -/
def processOneVariation (cfg : JetCalibratorConfig) (st : SetupState)
    (caps : Capabilities) (d : SystematicDescriptor) (jets : List Jet) : List Jet :=
  let s6 := pipelineStages cfg st caps d jets
  if cfg.m_sort then sortJetsByPt s6 else s6

/-- The event store retrieve interface (spec section 6): look a collection
up by name. -/
def retrieve : List (String × List Jet) → String → Option (List Jet)
  | [], _ => none
  | (n, js) :: rest, key => if n = key then some js else retrieve rest key

/-- The run-wide mutable counters `m_numEvent` and `m_numObject` declared in
the header. -/
structure Counters where
  m_numEvent : Int
  m_numObject : Int
deriving DecidableEq, Repr

/-- The full mutable state of the algorithm between events: the setup state
plus the run-wide counters. -/
structure AlgState where
  setupSt : SetupState
  counters : Counters
deriving Repr

/-- Modelled from the spec: one call of `execute` (header line 157) on one
event store (spec section 4.5).  A missing input collection is a
`MissingInputError` and ends the processing of that event; otherwise one
collection is published per enumerated descriptor, named from
`m_outContainerName`, in enumeration order.  The counters are updated in
both cases. -/
def execStep (cfg : JetCalibratorConfig) (caps : Capabilities) (a : AlgState)
    (store : List (String × List Jet)) :
    AlgState × Except EventError (List (String × List Jet)) :=
  match retrieve store cfg.m_inContainerName with
  | none =>
      ({ a with counters :=
          { a.counters with m_numEvent := a.counters.m_numEvent + 1 } },
       Except.error EventError.MissingInputError)
  | some jets =>
      let outs := a.setupSt.systDescriptors.map
        (fun d => (outputCollectionName cfg.m_outContainerName d,
                   processOneVariation cfg a.setupSt caps d jets))
      ({ a with counters :=
          { m_numEvent := a.counters.m_numEvent + 1
            m_numObject := a.counters.m_numObject + Int.ofNat jets.length } },
       Except.ok outs)

/-- Modelled from the spec: the sequential event loop (spec section 5): one
`execStep` per event, threading the algorithm state; a per-event failure
does not stop the loop. -/
def runEvents (cfg : JetCalibratorConfig) (caps : Capabilities) :
    AlgState → List (List (String × List Jet)) →
      List (Except EventError (List (String × List Jet)))
  | _, [] => []
  | a, store :: rest =>
      let r := execStep cfg caps a store
      r.2 :: runEvents cfg caps r.1 rest

/-- Modelled from the spec: a whole run: setup once, then the event loop;
a fatal setup failure aborts the run before any event is processed (spec
section 5). -/
def runJob (cfg : JetCalibratorConfig) (p : Provenance) (pr : Providers)
    (caps : Capabilities) (events : List (List (String × List Jet))) :
    Except ConfigError (List (Except EventError (List (String × List Jet)))) :=
  match setup cfg p pr with
  | Except.error e => Except.error e
  | Except.ok st =>
      Except.ok (runEvents cfg caps { setupSt := st, counters := ⟨0, 0⟩ } events)

/-! Sample configuration values used to exercise the model on concrete
inputs. -/

/-- A representative configuration of the algorithm. -/
def sampleCfg : JetCalibratorConfig :=
  { m_inContainerName := "AntiKt4EMTopoJets"
    m_outContainerName := "Jets_Calib"
    m_jetAlgo := "AntiKt4EMTopo"
    m_outputAlgo := "JetCalibrator_Syst"
    m_calibConfigData := "JES_data.config"
    m_calibConfigFullSim := "JES_MC15.config"
    m_calibConfigAFII := "JES_AFII.config"
    m_calibSequence := ["JetArea", "EtaJES", "GSC"]
    m_JESUncertConfig := "JES2015_SR.config"
    m_JESUncertMCType := "MC15"
    m_setAFII := false
    m_forceInsitu := false
    m_isTrigger := false
    m_JERUncertConfig := "JER_2015.config"
    m_JERFullSys := false
    m_JERApplyNominal := false
    m_doCleaning := true
    m_jetCleanCutLevel := "LooseBad"
    m_saveAllCleanDecisions := false
    m_jetCleanUgly := false
    m_redoJVT := false
    m_sort := true
    m_cleanParent := false
    m_applyFatJetPreSel := false
    m_doJetTileCorr := false }

/-- The sample configuration with no uncertainty configs supplied. -/
def cfgNoSys : JetCalibratorConfig :=
  { sampleCfg with m_JESUncertConfig := "", m_JERUncertConfig := "" }

/-- Provenance of a data sample. -/
def provData : Provenance := ⟨false, false, false, false⟩

/-- Provenance of a full-simulation sample. -/
def provFullSim : Provenance := ⟨true, true, false, false⟩

/-- Providers that register no systematic variations. -/
def noProviders : Providers := ⟨[], []⟩

/-- Providers registering one JES variation. -/
def oneJesProvider : Providers := ⟨["JET_EffectiveNP_1"], []⟩

/-- Capabilities whose numeric operations are the identity. -/
def trivialCaps : Capabilities :=
  { calibrate := fun _ j => j
    jesShift := fun _ j => j
    jerSmear := fun _ j => j
    jvtScore := fun _ => 0
    cleaningTools := []
    tileCorrect := fun j => j }

/-- A sample jet with the given transverse momentum. -/
def sampleJet (x : Int) : Jet :=
  { pt := x, eta := 0, phi := 0, e := x, jvt := none, cleanDecisions := [] }

/-- The setup state of the no-systematics full-simulation sample run. -/
def stW : SetupState :=
  ((setup cfgNoSys provFullSim noProviders).toOption).getD default

/-! Helper lemmas shared between the claim theorems. -/

theorem string_append_left_cancel {s t u : String} (h : s ++ t = s ++ u) : t = u := by
  have h2 : (s ++ t).data = (s ++ u).data := by rw [h]
  simp only [String.data_append, List.append_cancel_left_eq] at h2
  exact String.ext h2

theorem string_ne_append_of_ne_empty (s : String) {t : String} (h : t ≠ "") :
    s ≠ s ++ t := by
  intro he
  have h2 : s.length = s.length + t.length := by
    conv_lhs => rw [he]
    exact String.length_append s t
  have h3 : t.data.length = 0 := by
    have h4 : t.length = 0 := by omega
    exact h4
  exact h (String.ext (by simp [List.length_eq_zero.mp h3]))

theorem buildSystVectors_spec (l : List SystematicDescriptor) :
    buildSystVectors l =
      (l.map (fun d => d.name), l.map (fun d => toolCode d.originTool)) := by
  induction l with
  | nil => rfl
  | cons d rest ih => simp [buildSystVectors, ih]

theorem mem_insertJetDesc {x a : Jet} {l : List Jet} :
    x ∈ insertJetDesc a l ↔ x = a ∨ x ∈ l := by
  induction l with
  | nil => simp [insertJetDesc]
  | cons b l ih =>
    by_cases hb : b.pt ≤ a.pt
    · simp [insertJetDesc, hb]
    · simp [insertJetDesc, hb, ih]
      tauto

theorem perm_insertJetDesc (a : Jet) (l : List Jet) :
    List.Perm (insertJetDesc a l) (a :: l) := by
  induction l with
  | nil => exact List.Perm.refl _
  | cons b l ih =>
    by_cases hb : b.pt ≤ a.pt
    · rw [insertJetDesc, if_pos hb]
    · rw [insertJetDesc, if_neg hb]
      exact List.Perm.trans (ih.cons b) (List.Perm.swap a b l)

theorem perm_sortJetsByPt (l : List Jet) : List.Perm (sortJetsByPt l) l := by
  induction l with
  | nil => exact List.Perm.refl _
  | cons a l ih =>
    exact List.Perm.trans (perm_insertJetDesc a (sortJetsByPt l)) (ih.cons a)

theorem pairwise_insertJetDesc {a : Jet} {l : List Jet}
    (h : l.Pairwise (fun u v => v.pt ≤ u.pt)) :
    (insertJetDesc a l).Pairwise (fun u v => v.pt ≤ u.pt) := by
  induction l with
  | nil => simp [insertJetDesc]
  | cons b l ih =>
    rcases List.pairwise_cons.mp h with ⟨hb, hl⟩
    by_cases hba : b.pt ≤ a.pt
    · rw [insertJetDesc, if_pos hba]
      refine List.pairwise_cons.mpr ⟨?_, h⟩
      intro x hx
      rcases List.mem_cons.mp hx with rfl | hx
      · exact hba
      · exact le_trans (hb x hx) hba
    · rw [insertJetDesc, if_neg hba]
      refine List.pairwise_cons.mpr ⟨?_, ih hl⟩
      intro x hx
      rcases mem_insertJetDesc.mp hx with rfl | hx
      · exact le_of_lt (lt_of_not_le hba)
      · exact hb x hx

theorem sorted_sortJetsByPt (l : List Jet) :
    (sortJetsByPt l).Pairwise (fun u v => v.pt ≤ u.pt) := by
  induction l with
  | nil => simp [sortJetsByPt]
  | cons a l ih => exact pairwise_insertJetDesc ih

theorem filter_insertJetDesc (a : Jet) (l : List Jet) (c : Int) :
    (insertJetDesc a l).filter (fun j => j.pt == c) =
      if a.pt == c then a :: l.filter (fun j => j.pt == c)
      else l.filter (fun j => j.pt == c) := by
  induction l with
  | nil =>
    by_cases h : a.pt = c <;> simp [insertJetDesc, List.filter_cons, h]
  | cons b l ih =>
    by_cases hba : b.pt ≤ a.pt
    · rw [insertJetDesc, if_pos hba]
      simp [List.filter_cons]
    · rw [insertJetDesc, if_neg hba]
      by_cases hac : a.pt = c
      · have hbc : ¬ b.pt = c := by
          have hlt : a.pt < b.pt := lt_of_not_le hba
          omega
        simp [List.filter_cons, ih, hac, hbc]
      · simp [List.filter_cons, ih, hac]

theorem filter_sortJetsByPt (l : List Jet) (c : Int) :
    (sortJetsByPt l).filter (fun j => j.pt == c) = l.filter (fun j => j.pt == c) := by
  induction l with
  | nil => rfl
  | cons a l ih =>
    rw [sortJetsByPt, filter_insertJetDesc, ih, List.filter_cons]

theorem enumerate_ok {cfg : JetCalibratorConfig} {pr : Providers}
    {l : List SystematicDescriptor} (h : enumerate cfg pr = Except.ok l) :
    hasCollision (jesDescriptors cfg pr) (jerDescriptors cfg pr) = false ∧
    l = nominalDescriptor :: (jesDescriptors cfg pr ++ jerDescriptors cfg pr) := by
  cases hcc : hasCollision (jesDescriptors cfg pr) (jerDescriptors cfg pr) with
  | true => simp [enumerate, hcc] at h
  | false =>
    refine ⟨rfl, ?_⟩
    simp only [enumerate, hcc, Bool.false_eq_true, if_false, Except.ok.injEq] at h
    exact h.symm

theorem mem_jesDescriptors {cfg : JetCalibratorConfig} {pr : Providers}
    {d : SystematicDescriptor} (h : d ∈ jesDescriptors cfg pr) :
    d.name ∈ pr.jesVars ∧ d.originTool = OriginTool.jes := by
  unfold jesDescriptors at h
  split at h
  · cases h
  · rcases List.mem_map.mp h with ⟨n, hn, rfl⟩
    exact ⟨hn, rfl⟩

theorem mem_jerDescriptors {cfg : JetCalibratorConfig} {pr : Providers}
    {d : SystematicDescriptor} (h : d ∈ jerDescriptors cfg pr) :
    (d.name ∈ pr.jerVars ∨ d.name = "JER_Simplified") ∧
      d.originTool = OriginTool.jer := by
  unfold jerDescriptors at h
  split at h
  · cases h
  · split at h
    · rcases List.mem_map.mp h with ⟨n, hn, rfl⟩
      exact ⟨Or.inl hn, rfl⟩
    · rcases List.mem_singleton.mp h with rfl
      exact ⟨Or.inr rfl, rfl⟩

theorem jesDescriptors_names (cfg : JetCalibratorConfig) (pr : Providers) :
    (jesDescriptors cfg pr).map (fun d => d.name) = [] ∨
    (jesDescriptors cfg pr).map (fun d => d.name) = pr.jesVars := by
  unfold jesDescriptors
  split
  · exact Or.inl rfl
  · right
    rw [List.map_map]
    exact List.map_id pr.jesVars

theorem jerDescriptors_names (cfg : JetCalibratorConfig) (pr : Providers) :
    (jerDescriptors cfg pr).map (fun d => d.name) = [] ∨
    (jerDescriptors cfg pr).map (fun d => d.name) = pr.jerVars ∨
    (jerDescriptors cfg pr).map (fun d => d.name) = ["JER_Simplified"] := by
  unfold jerDescriptors
  split
  · exact Or.inl rfl
  · split
    · refine Or.inr (Or.inl ?_)
      rw [List.map_map]
      exact List.map_id pr.jerVars
    · exact Or.inr (Or.inr rfl)

theorem hasCollision_false_iff {jes jer : List SystematicDescriptor} :
    hasCollision jes jer = false ↔
      ∀ d ∈ jes, ∀ e ∈ jer, ¬ e.name = d.name := by
  simp [hasCollision]

theorem isShifted_eq_true_iff {d : SystematicDescriptor} :
    isShifted d = true ↔ d.originTool ≠ OriginTool.noTool := by
  cases h : d.originTool <;> simp [isShifted, h]

theorem shifted_of_mem_rest {cfg : JetCalibratorConfig} {pr : Providers}
    {d : SystematicDescriptor}
    (hd : d ∈ jesDescriptors cfg pr ++ jerDescriptors cfg pr) :
    isShifted d = true := by
  rcases List.mem_append.mp hd with h | h
  · have h2 := (mem_jesDescriptors h).2
    simp [isShifted, h2]
  · have h2 := (mem_jerDescriptors h).2
    simp [isShifted, h2]

theorem setup_ok {cfg : JetCalibratorConfig} {p : Provenance} {pr : Providers}
    {st : SetupState} (h : setup cfg p pr = Except.ok st) :
    ∃ l, enumerate cfg pr = Except.ok l ∧
      st = { m_calibConfig := (select cfg p).configPath
             calibSequence := (select cfg p).sequence
             systDescriptors := l
             m_systList := (buildSystVectors l).1
             m_systType := (buildSystVectors l).2
             m_runSysts := l.any isShifted
             tileCorrReady := cfg.m_doJetTileCorr } ∧
      ¬ (select cfg p).configPath = "" ∧
      ¬ (cfg.m_doJetTileCorr ∧ "Insitu" ∉ (select cfg p).sequence) := by
  unfold setup at h
  split at h
  · cases h
  · split at h
    · cases h
    · rename_i h1 h2
      cases henum : enumerate cfg pr with
      | error e => rw [henum] at h; cases h
      | ok l =>
        rw [henum] at h
        exact ⟨l, rfl, (Except.ok.inj h).symm, h1, h2⟩

theorem setup_tile_error {cfg : JetCalibratorConfig} {p : Provenance}
    (pr : Providers) (ht : cfg.m_doJetTileCorr = true)
    (hm : "Insitu" ∉ (select cfg p).sequence) :
    setup cfg p pr = Except.error ConfigError.ConfigurationError := by
  by_cases h1 : (select cfg p).configPath = ""
  · simp [setup, h1]
  · simp [setup, h1, ht, hm]

theorem setup_collision_error {cfg : JetCalibratorConfig} {pr : Providers}
    (hc : hasCollision (jesDescriptors cfg pr) (jerDescriptors cfg pr) = true)
    (p : Provenance) :
    setup cfg p pr = Except.error ConfigError.ConfigurationError := by
  have he : enumerate cfg pr = Except.error ConfigError.ConfigurationError := by
    simp [enumerate, hc]
  by_cases h1 : (select cfg p).configPath = ""
  · simp [setup, h1]
  · by_cases h2 : cfg.m_doJetTileCorr ∧ "Insitu" ∉ (select cfg p).sequence
    · simp [setup, h1, h2]
    · simp [setup, h1, h2, he]

theorem execStep_setupSt (cfg : JetCalibratorConfig) (caps : Capabilities)
    (a : AlgState) (store : List (String × List Jet)) :
    ((execStep cfg caps a store).1).setupSt = a.setupSt := by
  unfold execStep
  cases retrieve store cfg.m_inContainerName <;> rfl

theorem execStep_out_congr (cfg : JetCalibratorConfig) (caps : Capabilities)
    (store : List (String × List Jet)) {a b : AlgState}
    (h : a.setupSt = b.setupSt) :
    (execStep cfg caps a store).2 = (execStep cfg caps b store).2 := by
  unfold execStep
  cases retrieve store cfg.m_inContainerName <;> simp [h]

theorem runEvents_congr (cfg : JetCalibratorConfig) (caps : Capabilities)
    (events : List (List (String × List Jet))) :
    ∀ {a b : AlgState}, a.setupSt = b.setupSt →
      runEvents cfg caps a events = runEvents cfg caps b events := by
  induction events with
  | nil => intro a b h; rfl
  | cons store rest ih =>
    intro a b h
    simp only [runEvents]
    have h1 := execStep_out_congr cfg caps store h
    have h2 : ((execStep cfg caps a store).1).setupSt =
        ((execStep cfg caps b store).1).setupSt := by
      rw [execStep_setupSt, execStep_setupSt, h]
    rw [h1, ih h2]

/-! Claim theorems. -/

/-- C1: For every resolved provenance the calibration configuration selector
takes exactly one branch of the decision table: data uses the data config
with the Insitu step appended to the calibration sequence, full simulation
uses the full-sim config, fast simulation uses the AFII config; no
provenance value leaves the selector without a chosen config string and
sequence. -/
theorem C1_selector_decision_table (cfg : JetCalibratorConfig) (p : Provenance) :
    (∃! c : SampleClass, sampleClass p = c) ∧
    (p.isSimulation = false →
      sampleClass p = SampleClass.data ∧
      select cfg p =
        { configPath := cfg.m_calibConfigData
          sequence := cfg.m_calibSequence ++ ["Insitu"] }) ∧
    (p.isSimulation = true → p.isFullSimulation = true → p.forcedFastSim = false →
      sampleClass p = SampleClass.fullSim ∧
      (select cfg p).configPath = cfg.m_calibConfigFullSim) ∧
    (p.isSimulation = true → (p.isFullSimulation = false ∨ p.forcedFastSim = true) →
      sampleClass p = SampleClass.fastSim ∧
      (select cfg p).configPath = cfg.m_calibConfigAFII) := by
  refine ⟨⟨sampleClass p, rfl, fun c h => h.symm⟩, ?_, ?_, ?_⟩ <;>
    rcases p with ⟨sim, full, fast, ins⟩ <;>
    cases sim <;> cases full <;> cases fast <;>
    simp [select, sampleClass]

/-- C1 witness: on a concrete data provenance the selector chooses the data
config and appends Insitu. -/
theorem C1_selector_decision_table_witness :
    select sampleCfg provData =
      { configPath := sampleCfg.m_calibConfigData
        sequence := sampleCfg.m_calibSequence ++ ["Insitu"] } :=
  ((C1_selector_decision_table sampleCfg provData).2.1 rfl).2

/-- C2: In the enumerated descriptor list the nominal descriptor is the
first element and occurs exactly once, for every configuration, including
when the providers register no variations (the registered variation names
being nonempty, the empty name marking the nominal entry). -/
theorem C2_nominal_first_unique (cfg : JetCalibratorConfig) (pr : Providers)
    (hJes : "" ∉ pr.jesVars) (hJer : "" ∉ pr.jerVars)
    (l : List SystematicDescriptor) (hok : enumerate cfg pr = Except.ok l) :
    l.head? = some nominalDescriptor ∧
    l.countP (fun d => d.name == "") = 1 := by
  rcases enumerate_ok hok with ⟨-, rfl⟩
  refine ⟨rfl, ?_⟩
  rw [List.countP_cons]
  have h0 : (jesDescriptors cfg pr ++ jerDescriptors cfg pr).countP
      (fun d => d.name == "") = 0 := by
    apply List.countP_eq_zero.mpr
    intro d hd
    simp only [beq_iff_eq]
    intro he
    rcases List.mem_append.mp hd with h | h
    · exact hJes (he ▸ (mem_jesDescriptors h).1)
    · rcases (mem_jerDescriptors h).1 with hn | hn
      · exact hJer (he ▸ hn)
      · exact absurd (he.symm.trans hn) (by decide)
  simp [h0, nominalDescriptor]

/-- C2 witness: with no registered variations the list is exactly the
nominal descriptor. -/
theorem C2_nominal_first_unique_witness :
    ([nominalDescriptor] : List SystematicDescriptor).head? =
        some nominalDescriptor ∧
    ([nominalDescriptor] : List SystematicDescriptor).countP
        (fun d => d.name == "") = 1 :=
  C2_nominal_first_unique cfgNoSys noProviders (by simp [cfgNoSys, noProviders])
    (by simp [cfgNoSys, noProviders]) [nominalDescriptor] rfl

/-- C4: If tile correction is enabled but the calibration sequence lacks the
Insitu step, setup fails with a ConfigurationError and the whole run aborts
before any event is processed; conversely, when setup succeeds with the
tile-correction capability constructed, the sequence contains Insitu. -/
theorem C4_tile_requires_insitu (cfg : JetCalibratorConfig) (p : Provenance)
    (pr : Providers) :
    (cfg.m_doJetTileCorr = true → "Insitu" ∉ (select cfg p).sequence →
      setup cfg p pr = Except.error ConfigError.ConfigurationError ∧
      ∀ caps events,
        runJob cfg p pr caps events =
          Except.error ConfigError.ConfigurationError) ∧
    (∀ st, setup cfg p pr = Except.ok st → st.tileCorrReady = true →
      "Insitu" ∈ st.calibSequence) := by
  constructor
  · intro ht hm
    have hs := setup_tile_error pr ht hm
    exact ⟨hs, fun caps events => by simp [runJob, hs]⟩
  · intro st hok htile
    rcases setup_ok hok with ⟨l, -, rfl, -, hnotile⟩
    by_cases hmem : "Insitu" ∈ (select cfg p).sequence
    · exact hmem
    · exact absurd ⟨htile, hmem⟩ hnotile

/-- C4 witness: enabling tile correction on a full-simulation sample whose
sequence lacks Insitu makes setup fail with a ConfigurationError. -/
theorem C4_tile_requires_insitu_witness :
    setup { sampleCfg with m_doJetTileCorr := true } provFullSim noProviders =
      Except.error ConfigError.ConfigurationError :=
  ((C4_tile_requires_insitu { sampleCfg with m_doJetTileCorr := true }
      provFullSim noProviders).1 rfl (by decide)).1

/-- C5: With a JER uncertainty config supplied and the JER-full-systematics
flag false, the enumerator produces exactly one JER-origin descriptor, no
matter how many JER variations the provider registers; with the flag true,
every registered JER variation becomes a descriptor. -/
theorem C5_jer_collapse (cfg : JetCalibratorConfig) (pr : Providers)
    (hsup : cfg.m_JERUncertConfig ≠ "") :
    (cfg.m_JERFullSys = false →
      jerDescriptors cfg pr =
        [{ name := "JER_Simplified", originTool := OriginTool.jer }] ∧
      ∀ l, enumerate cfg pr = Except.ok l →
        l.countP (fun d => d.originTool == OriginTool.jer) = 1) ∧
    (cfg.m_JERFullSys = true →
      ∀ l, enumerate cfg pr = Except.ok l →
        l.filter (fun d => d.originTool == OriginTool.jer) =
          pr.jerVars.map (fun n => { name := n, originTool := OriginTool.jer })) := by
  have hjes0 : ∀ d ∈ jesDescriptors cfg pr,
      ¬ (d.originTool == OriginTool.jer) = true := by
    intro d hd
    simp [(mem_jesDescriptors hd).2]
  constructor
  · intro hfull
    have hjer : jerDescriptors cfg pr =
        [{ name := "JER_Simplified", originTool := OriginTool.jer }] := by
      unfold jerDescriptors
      rw [if_neg hsup, if_neg (by simp [hfull])]
    refine ⟨hjer, ?_⟩
    intro l hok
    rcases enumerate_ok hok with ⟨-, rfl⟩
    rw [List.countP_cons, List.countP_append, hjer]
    rw [List.countP_eq_zero.mpr hjes0]
    simp [nominalDescriptor, List.countP_cons]
  · intro hfull l hok
    rcases enumerate_ok hok with ⟨-, rfl⟩
    have hjer : jerDescriptors cfg pr =
        pr.jerVars.map (fun n => { name := n, originTool := OriginTool.jer }) := by
      unfold jerDescriptors
      rw [if_neg hsup, if_pos hfull]
    rw [List.filter_cons, List.filter_append]
    have h1 : (jesDescriptors cfg pr).filter
        (fun d => d.originTool == OriginTool.jer) = [] := by
      rw [List.filter_eq_nil_iff]
      exact hjes0
    have h2 : (jerDescriptors cfg pr).filter
        (fun d => d.originTool == OriginTool.jer) = jerDescriptors cfg pr := by
      rw [List.filter_eq_self]
      intro d hd
      simp [(mem_jerDescriptors hd).2]
    rw [h1, h2, hjer]
    simp [nominalDescriptor]

/-- C5 witness: with the sample configuration in simple JER mode the
enumerated list has exactly one JER-origin descriptor even though the JES
provider registers a variation. -/
theorem C5_jer_collapse_witness :
    ([nominalDescriptor,
      { name := "JET_EffectiveNP_1", originTool := OriginTool.jes },
      { name := "JER_Simplified", originTool := OriginTool.jer }] :
        List SystematicDescriptor).countP
      (fun d => d.originTool == OriginTool.jer) = 1 :=
  (((C5_jer_collapse sampleCfg oneJesProvider (by decide)).1 rfl).2)
    [nominalDescriptor,
      { name := "JET_EffectiveNP_1", originTool := OriginTool.jes },
      { name := "JER_Simplified", originTool := OriginTool.jer }] rfl

/-- C3: For every pair of distinct enumerated descriptors the derived output
collection names are distinct, and a name collision between JES-origin and
JER-origin descriptors makes the run fail with a ConfigurationError at setup
time, before any event is processed (never at publish time). -/
theorem C3_output_names_unique (cfg : JetCalibratorConfig) (pr : Providers)
    (h1 : pr.jesVars.Nodup) (h2 : pr.jerVars.Nodup)
    (h3 : "" ∉ pr.jesVars) (h4 : "" ∉ pr.jerVars) :
    (∀ l, enumerate cfg pr = Except.ok l →
      (l.map (outputCollectionName cfg.m_outContainerName)).Nodup) ∧
    (hasCollision (jesDescriptors cfg pr) (jerDescriptors cfg pr) = true →
      ∀ p caps events,
        runJob cfg p pr caps events =
          Except.error ConfigError.ConfigurationError) := by
  constructor
  · intro l hok
    rcases enumerate_ok hok with ⟨hc, rfl⟩
    have hne : ∀ d ∈ jesDescriptors cfg pr ++ jerDescriptors cfg pr,
        d.name ≠ "" := by
      intro d hd
      rcases List.mem_append.mp hd with hd2 | hd2
      · intro he
        exact h3 (he ▸ (mem_jesDescriptors hd2).1)
      · rcases (mem_jerDescriptors hd2).1 with hn | hn
        · intro he
          exact h4 (he ▸ hn)
        · rw [hn]
          decide
    have hnames : ((jesDescriptors cfg pr ++ jerDescriptors cfg pr).map
        (fun d => d.name)).Nodup := by
      rw [List.map_append]
      refine List.Nodup.append ?_ ?_ ?_
      · rcases jesDescriptors_names cfg pr with h | h <;> rw [h]
        · exact List.nodup_nil
        · exact h1
      · rcases jerDescriptors_names cfg pr with h | h | h <;> rw [h]
        · exact List.nodup_nil
        · exact h2
        · simp
      · intro s hs ht
        rcases List.mem_map.mp hs with ⟨d, hd, rfl⟩
        rcases List.mem_map.mp ht with ⟨e, he2, hse⟩
        exact (hasCollision_false_iff.mp hc) d hd e he2 hse
    have hmap : (jesDescriptors cfg pr ++ jerDescriptors cfg pr).map
          (outputCollectionName cfg.m_outContainerName) =
        ((jesDescriptors cfg pr ++ jerDescriptors cfg pr).map
          (fun d => d.name)).map (fun n => cfg.m_outContainerName ++ n) := by
      rw [List.map_map]
      apply List.map_congr_left
      intro d hd
      simp [outputCollectionName, Function.comp, hne d hd]
    rw [List.map_cons, hmap]
    have hbase : outputCollectionName cfg.m_outContainerName nominalDescriptor =
        cfg.m_outContainerName := rfl
    rw [hbase]
    refine List.nodup_cons.mpr ⟨?_, ?_⟩
    · intro hmem
      rcases List.mem_map.mp hmem with ⟨n, hn, he⟩
      have hne2 : n ≠ "" := by
        rcases List.mem_map.mp hn with ⟨d, hd, rfl⟩
        exact hne d hd
      exact string_ne_append_of_ne_empty cfg.m_outContainerName hne2 he.symm
    · exact hnames.map (fun x y h => string_append_left_cancel h)
  · intro hc p caps events
    have hs := setup_collision_error hc p
    simp [runJob, hs]

/-- C3 witness: the concrete enumerated list of the sample configuration
yields pairwise distinct output collection names. -/
theorem C3_output_names_unique_witness :
    (([nominalDescriptor,
       { name := "JET_EffectiveNP_1", originTool := OriginTool.jes },
       { name := "JER_Simplified", originTool := OriginTool.jer }] :
         List SystematicDescriptor).map
      (outputCollectionName sampleCfg.m_outContainerName)).Nodup :=
  (C3_output_names_unique sampleCfg oneJesProvider
      (by simp [oneJesProvider]) (by simp [oneJesProvider])
      (by simp [oneJesProvider]) (by simp [oneJesProvider])).1
    [nominalDescriptor,
     { name := "JET_EffectiveNP_1", originTool := OriginTool.jes },
     { name := "JER_Simplified", originTool := OriginTool.jer }] rfl

/-- C6: When sorting is enabled the pipeline publishes the sorted copy, and
the sort orders jets by descending transverse momentum, is a permutation of
its input, and is stable: jets of equal momentum keep their pre-sort
relative order (phrased as commutation with filtering on each momentum
value). -/
theorem C6_sort_stable_descending (cfg : JetCalibratorConfig) (st : SetupState)
    (caps : Capabilities) (d : SystematicDescriptor) (jets : List Jet)
    (hs : cfg.m_sort = true) :
    processOneVariation cfg st caps d jets =
      sortJetsByPt (pipelineStages cfg st caps d jets) ∧
    ∀ l : List Jet,
      List.Perm (sortJetsByPt l) l ∧
      (sortJetsByPt l).Pairwise (fun u v => v.pt ≤ u.pt) ∧
      ∀ c : Int,
        (sortJetsByPt l).filter (fun j => j.pt == c) =
          l.filter (fun j => j.pt == c) := by
  refine ⟨by simp [processOneVariation, hs], fun l =>
    ⟨perm_sortJetsByPt l, sorted_sortJetsByPt l, fun c => filter_sortJetsByPt l c⟩⟩

/-- C6 witness: on a concrete two-jet collection with equal momenta the
published collection is the sorted one and filtering at that momentum value
is unchanged by the sort. -/
theorem C6_sort_stable_descending_witness :
    processOneVariation sampleCfg stW trivialCaps nominalDescriptor
        [sampleJet 5, sampleJet 7] =
      sortJetsByPt (pipelineStages sampleCfg stW trivialCaps nominalDescriptor
        [sampleJet 5, sampleJet 7]) ∧
    (sortJetsByPt [sampleJet 5, sampleJet 5]).filter (fun j => j.pt == 5) =
      ([sampleJet 5, sampleJet 5] : List Jet).filter (fun j => j.pt == 5) :=
  ⟨(C6_sort_stable_descending sampleCfg stW trivialCaps nominalDescriptor
      [sampleJet 5, sampleJet 7] rfl).1,
   ((C6_sort_stable_descending sampleCfg stW trivialCaps nominalDescriptor
      [sampleJet 5, sampleJet 7] rfl).2 [sampleJet 5, sampleJet 5]).2.2 5⟩

/-- C7: The per-event pipeline is deterministic: over the same input events
with the same setup state, the published outputs are identical no matter the
run-wide counter state, so two runs over the same unmodified input produce
identical output collections. -/
theorem C7_pipeline_deterministic (cfg : JetCalibratorConfig) (st : SetupState)
    (caps : Capabilities) (c1 c2 : Counters)
    (events : List (List (String × List Jet))) :
    runEvents cfg caps { setupSt := st, counters := c1 } events =
      runEvents cfg caps { setupSt := st, counters := c2 } events :=
  runEvents_congr cfg caps events rfl

/-- C8: If the requested input jet collection is absent from the event store
the event fails with a MissingInputError, no collection is published for
that event, and the run continues with the next events unchanged. -/
theorem C8_missing_input_fatal_for_event (cfg : JetCalibratorConfig)
    (st : SetupState) (caps : Capabilities) (c : Counters)
    (store : List (String × List Jet)) (rest : List (List (String × List Jet)))
    (hmiss : retrieve store cfg.m_inContainerName = none) :
    (execStep cfg caps { setupSt := st, counters := c } store).2 =
      Except.error EventError.MissingInputError ∧
    runEvents cfg caps { setupSt := st, counters := c } (store :: rest) =
      Except.error EventError.MissingInputError ::
        runEvents cfg caps { setupSt := st, counters := c } rest := by
  have hout : (execStep cfg caps ⟨st, c⟩ store).2 =
      Except.error EventError.MissingInputError := by
    simp [execStep, hmiss]
  refine ⟨hout, ?_⟩
  simp only [runEvents]
  rw [hout]
  congr 1
  apply runEvents_congr
  rw [execStep_setupSt]

/-- C8 witness: an empty event store lacks the input collection and the
event fails with a MissingInputError. -/
theorem C8_missing_input_fatal_for_event_witness :
    (execStep sampleCfg trivialCaps { setupSt := stW, counters := ⟨0, 0⟩ } []).2 =
      Except.error EventError.MissingInputError :=
  (C8_missing_input_fatal_for_event sampleCfg stW trivialCaps ⟨0, 0⟩ [] [] rfl).1

/-- C9: After setup the vectors m_systList and m_systType are parallel: they
have the same length, the i-th type code records the origin tool of the i-th
systematic entry, and event processing leaves the setup state unchanged. -/
theorem C9_syst_vectors_parallel (cfg : JetCalibratorConfig) (p : Provenance)
    (pr : Providers) (st : SetupState) (hok : setup cfg p pr = Except.ok st) :
    st.m_systList.length = st.m_systType.length ∧
    st.m_systList = st.systDescriptors.map (fun d => d.name) ∧
    st.m_systType = st.systDescriptors.map (fun d => toolCode d.originTool) ∧
    ∀ caps c store,
      ((execStep cfg caps { setupSt := st, counters := c } store).1).setupSt = st := by
  rcases setup_ok hok with ⟨l, -, rfl, -, -⟩
  refine ⟨?_, ?_, ?_, ?_⟩
  · simp [buildSystVectors_spec]
  · simp [buildSystVectors_spec]
  · simp [buildSystVectors_spec]
  · intro caps c store
    exact execStep_setupSt cfg caps _ store

/-- C9 witness: on the concrete no-systematics setup the two vectors have
equal length. -/
theorem C9_syst_vectors_parallel_witness :
    stW.m_systList.length = stW.m_systType.length :=
  (C9_syst_vectors_parallel cfgNoSys provFullSim noProviders stW (by rfl)).1

/-- C10: After setup, m_runSysts is true exactly when the enumerated
descriptor list contains a non-nominal entry; when it is false, processing
an event publishes only the single nominal collection under the base output
name. -/
theorem C10_runSysts_iff (cfg : JetCalibratorConfig) (p : Provenance)
    (pr : Providers) (st : SetupState) (hok : setup cfg p pr = Except.ok st) :
    (st.m_runSysts = true ↔
      ∃ d ∈ st.systDescriptors, d.originTool ≠ OriginTool.noTool) ∧
    (st.m_runSysts = false →
      ∀ caps c store jets, retrieve store cfg.m_inContainerName = some jets →
        (execStep cfg caps { setupSt := st, counters := c } store).2 =
          Except.ok [(cfg.m_outContainerName,
            processOneVariation cfg st caps nominalDescriptor jets)]) := by
  rcases setup_ok hok with ⟨l, henum, rfl, -, -⟩
  rcases enumerate_ok henum with ⟨-, rfl⟩
  constructor
  · show (nominalDescriptor :: (jesDescriptors cfg pr ++ jerDescriptors cfg pr)).any
        isShifted = true ↔ _
    rw [List.any_eq_true]
    constructor
    · rintro ⟨d, hd, hsh⟩
      exact ⟨d, hd, isShifted_eq_true_iff.mp hsh⟩
    · rintro ⟨d, hd, hsh⟩
      exact ⟨d, hd, isShifted_eq_true_iff.mpr hsh⟩
  · intro hfalse caps c store jets hret
    have hrest : jesDescriptors cfg pr ++ jerDescriptors cfg pr = [] := by
      rcases hemp : jesDescriptors cfg pr ++ jerDescriptors cfg pr with _ | ⟨d, ds⟩
      · rfl
      · exfalso
        have hd : d ∈ jesDescriptors cfg pr ++ jerDescriptors cfg pr := by
          rw [hemp]; exact List.mem_cons_self d ds
        have hsh := shifted_of_mem_rest hd
        have hall := List.any_eq_false.mp hfalse d (List.mem_cons_of_mem _ hd)
        rw [hsh] at hall
        cases hall rfl
    simp [execStep, hret, hrest, outputCollectionName, nominalDescriptor]

/-- C10 witness: with no systematics configured the concrete event is
published as the single nominal collection under the base output name. -/
theorem C10_runSysts_iff_witness :
    (execStep cfgNoSys trivialCaps { setupSt := stW, counters := ⟨0, 0⟩ }
        [(cfgNoSys.m_inContainerName, [sampleJet 5])]).2 =
      Except.ok [(cfgNoSys.m_outContainerName,
        processOneVariation cfgNoSys stW trivialCaps nominalDescriptor
          [sampleJet 5])] :=
  (C10_runSysts_iff cfgNoSys provFullSim noProviders stW (by rfl)).2 (by rfl)
    trivialCaps ⟨0, 0⟩ [(cfgNoSys.m_inContainerName, [sampleJet 5])]
    [sampleJet 5] rfl

end JetCalib
